import Mathlib

/-!
Shallow embedding of `ciSignature` (src/hotspot/share/ci/ciSignature.cpp):
the resolved signature of a method in the compiler interface, with
never-null value-type tracking.  The collaborator types (`ciType`, the
signature token stream, `ciMethodType`, `Symbol`) are outside the source
core and are modelled from the specification; the `ciSignature`
constructors and queries are translated from the source.
-/

/-- Modelled from the spec: primitive type tags of the descriptor grammar
(the VM `BasicType` values a signature stream can yield for primitives). -/
inductive BasicType
  | t_boolean
  | t_char
  | t_float
  | t_double
  | t_byte
  | t_short
  | t_int
  | t_long
  | t_void
deriving DecidableEq, Repr

/-- Modelled from the spec: the resolved `Type` entity (`ciType`).
Variants: canonical primitives, class references carrying a loaded flag
(an unloaded class placeholder has `loaded = false`), loaded value types,
and the never-null wrapper decorator.  Canonical identity (pointer
equality in the source) is structural equality of this datatype. -/
inductive ciType
  | prim (k : BasicType)
  | instKlass (id : Nat) (loaded : Bool)
  | valuetype (id : Nat)
  | wrapper (inner : ciType)
deriving DecidableEq, Repr

/-- Modelled from the spec: machine-word footprint (stack slots) of a
type.  Wide primitives take two slots, `void` none, everything else one;
the never-null wrapper delegates to the wrapped type. -/
def ciType.size : ciType → Nat
  | .prim .t_long => 2
  | .prim .t_double => 2
  | .prim .t_void => 0
  | .prim _ => 1
  | .instKlass _ _ => 1
  | .valuetype _ => 1
  | .wrapper t => t.size

/-- Modelled from the spec: strip a never-null wrapper; the identity on
every other type. -/
def ciType.unwrap : ciType → ciType
  | .wrapper t => t
  | t => t

/-- Modelled from the spec: true exactly on the never-null wrapper. -/
def ciType.is_never_null : ciType → Bool
  | .wrapper _ => true
  | _ => false

/-- Modelled from the spec: true on loaded value types; the wrapper
delegates. -/
def ciType.is_valuetype : ciType → Bool
  | .valuetype _ => true
  | .wrapper t => t.is_valuetype
  | _ => false

/-- Modelled from the spec: class references and value types are instance
klasses; primitives are not. -/
def ciType.is_instance_klass : ciType → Bool
  | .instKlass _ _ => true
  | .valuetype _ => true
  | _ => false

/-- Modelled from the spec: only a class-reference placeholder can be
unloaded; primitives and resolved value types are always loaded. -/
def ciType.is_loaded : ciType → Bool
  | .instKlass _ l => l
  | _ => true

/-- Modelled from the spec: one token of the tokenized descriptor — a
primitive tag, or a reference-type name whose flag records the never-null
(`Q`) marker. -/
inductive SigToken
  | prim (k : BasicType)
  | ref (name : Nat) (q : Bool)
deriving DecidableEq, Repr

/-- Modelled from the spec: `ss.type() == T_VALUETYPE`, i.e. this token is
a `Q`-type carrying the never-null marker. -/
def SigToken.isQ : SigToken → Bool
  | .ref _ q => q
  | .prim _ => false

/-- Modelled from the spec: an interned method descriptor, already
tokenized — the parameter tokens in declaration order, then the
return-type token. -/
structure MethodDescriptor where
  params : List SigToken
  ret : SigToken
deriving DecidableEq, Repr

/-- Modelled from the spec: `Symbol::is_Q_method_signature` — the raw
descriptor's return-type token carries the never-null (`Q`) marker. -/
def MethodDescriptor.is_Q_method_signature (d : MethodDescriptor) : Bool :=
  d.ret.isQ

/-- `GrowableArray::at`: bounds-checked element access.  `none` models the
assertion failure on an out-of-range (possibly negative) index. -/
def growableAt {α : Type} (l : List α) (i : Int) : Option α :=
  if 0 ≤ i then l[i.toNat]? else none

/-- One iteration of the loop in `ciSignature::ciSignature` (descriptor
text path): resolve the token — a primitive directly via `ciType::make`, a
reference through the resolver (`get_klass_by_name_impl`) — then wrap the
result in a never-null wrapper when it is a value type and the token
carried the `Q` marker. -/
def resolveToken (resolve : Nat → ciType) (tok : SigToken) : ciType :=
  let type :=
    match tok with
    | .prim k => ciType.prim k
    | .ref n _ => resolve n
  if type.is_valuetype && tok.isQ then ciType.wrapper type else type

/-- The state of `ciSignature`: accessing klass, interned descriptor
symbol, the `_types` growable array, and the cached `_size` and
`_count`. -/
structure ciSignature where
  accessing_klass : Nat
  symbol : MethodDescriptor
  types : List ciType
  size : Nat
  count : Nat
deriving DecidableEq, Repr

/-- Loop body of the descriptor-text constructor: append the resolved
(possibly wrapped) type and, for a parameter position, accumulate its slot
size and bump the count. -/
def buildStep (resolve : Nat → ciType) (acc : List ciType × Nat × Nat)
    (tok : SigToken) : List ciType × Nat × Nat :=
  let type := resolveToken resolve tok
  (acc.1 ++ [type], acc.2.1 + type.size, acc.2.2 + 1)

/-- `ciSignature::ciSignature(accessing_klass, cpool, symbol)`: walk the
parameter tokens accumulating types, slot size and count, then append the
resolved return type without counting it. -/
def ciSignature.make (accessing_klass : Nat) (resolve : Nat → ciType)
    (d : MethodDescriptor) : ciSignature :=
  let acc := d.params.foldl (buildStep resolve) ([], 0, 0)
  { accessing_klass := accessing_klass
    symbol := d
    types := acc.1 ++ [resolveToken resolve d.ret]
    size := acc.2.1
    count := acc.2.2 }

/-- Modelled from the spec: the structured type-descriptor collaborator
(`ciMethodType`) — already-resolved parameter types and return type, each
with its never-null flag. -/
structure ciMethodType where
  ptypes : List (ciType × Bool)
  rtype : ciType × Bool
deriving DecidableEq, Repr

/-- Modelled from the spec: `ciMethodType::ptype_count`. -/
def ciMethodType.ptype_count (mt : ciMethodType) : Nat :=
  mt.ptypes.length

/-- Modelled from the spec: `ciMethodType::ptype_slot_count`, the
structured descriptor's own slot accounting — the sum of its parameter
types' word footprints. -/
def ciMethodType.ptype_slot_count (mt : ciMethodType) : Nat :=
  (mt.ptypes.map (fun p => p.1.size)).sum

/-- A structured descriptor in canonical form: the types it hands out are
bare (never pre-wrapped); wrapping is applied by signature construction. -/
def ciMethodType.wellFormed (mt : ciMethodType) : Prop :=
  (∀ p ∈ mt.ptypes, p.1.is_never_null = false) ∧
  mt.rtype.1.is_never_null = false

/-- The wrap rule of the method-type constructor: wrap when the fetched
type is a value type and its never-null flag is set. -/
def wrapIfNeverNull (p : ciType × Bool) : ciType :=
  if p.1.is_valuetype && p.2 then ciType.wrapper p.1 else p.1

/-- `ciSignature::ciSignature(accessing_klass, symbol, method_type)`: size
and count are read from the structured descriptor; each parameter type and
the return type are fetched with their never-null flags and wrapped by the
same rule as the textual path. -/
def ciSignature.makeFromMethodType (accessing_klass : Nat)
    (sym : MethodDescriptor) (mt : ciMethodType) : ciSignature :=
  { accessing_klass := accessing_klass
    symbol := sym
    types := mt.ptypes.map wrapIfNeverNull ++ [wrapIfNeverNull mt.rtype]
    size := mt.ptype_slot_count
    count := mt.ptype_count }

/-- `ciSignature::return_type`: `_types->at(_count)->unwrap()`. -/
def ciSignature.return_type (s : ciSignature) : Option ciType :=
  (growableAt s.types (s.count : Int)).map ciType.unwrap

/-- `ciSignature::type_at`: assert `index < _count`, then
`_types->at(index)->unwrap()` (the array access checks the lower bound);
`none` models an assertion failure. -/
def ciSignature.type_at (s : ciSignature) (index : Int) : Option ciType :=
  if index < (s.count : Int) then
    (growableAt s.types index).map ciType.unwrap
  else none

/-- `ciSignature::returns_never_null`: `_types->at(_count)->is_never_null()`. -/
def ciSignature.returns_never_null (s : ciSignature) : Option Bool :=
  (growableAt s.types (s.count : Int)).map ciType.is_never_null

/-- `ciSignature::maybe_returns_never_null`: true if the return element is
never-null; otherwise, for an unloaded instance klass, fall back to the
raw descriptor's `Q` marker on the return type; otherwise false. -/
def ciSignature.maybe_returns_never_null (s : ciSignature) : Option Bool :=
  (growableAt s.types (s.count : Int)).map (fun ret_type =>
    if ret_type.is_never_null then true
    else if ret_type.is_instance_klass && !ret_type.is_loaded then
      s.symbol.is_Q_method_signature
    else false)

/-- `ciSignature::is_never_null_at`: assert `index < _count`, then
`_types->at(index)->is_never_null()`. -/
def ciSignature.is_never_null_at (s : ciSignature) (index : Int) : Option Bool :=
  if index < (s.count : Int) then
    (growableAt s.types index).map ciType.is_never_null
  else none

/-- `ciSignature::equals`: compare descriptor symbols, then every
parameter type via `type_at`, then the return type via `return_type`. -/
def ciSignature.equals (s that : ciSignature) : Bool :=
  decide (s.symbol = that.symbol) &&
  ((List.range s.count).all fun i =>
    decide (s.type_at (i : Int) = that.type_at (i : Int))) &&
  decide (s.return_type = that.return_type)

/-- A resolver in canonical form: it returns bare resolved types, never an
already-wrapped one (wrapping is applied by signature construction). -/
def goodResolver (resolve : Nat → ciType) : Prop :=
  ∀ n, (resolve n).is_never_null = false

/-- Spec-side companion for the refinement claim: the structured
equivalent of one textual descriptor token — its resolved base type paired
with the token's never-null marker. -/
def tokenToPair (resolve : Nat → ciType) : SigToken → ciType × Bool
  | .prim k => (ciType.prim k, false)
  | .ref n q => (resolve n, q)

/-- Spec-side companion for the refinement claim: the structured
type-descriptor equivalent to a whole textual descriptor. -/
def methodTypeOf (resolve : Nat → ciType) (d : MethodDescriptor) : ciMethodType :=
  { ptypes := d.params.map (tokenToPair resolve)
    rtype := tokenToPair resolve d.ret }

theorem scenario_slot_size :
    (ciSignature.make 0 (fun _ => ciType.valuetype 0)
      ⟨[SigToken.prim BasicType.t_int, SigToken.prim BasicType.t_double,
        SigToken.ref 7 true], SigToken.prim BasicType.t_void⟩).size = 4 := by
  decide

theorem scenario_never_null_param :
    (ciSignature.make 0 (fun _ => ciType.valuetype 0)
      ⟨[SigToken.ref 7 true], SigToken.prim BasicType.t_void⟩).is_never_null_at 0
    = some true := by
  decide

theorem buildStep_foldl (resolve : Nat → ciType) (l : List SigToken)
    (acc : List ciType × Nat × Nat) :
    l.foldl (buildStep resolve) acc =
      (acc.1 ++ l.map (resolveToken resolve),
       acc.2.1 + (l.map (fun tok => (resolveToken resolve tok).size)).sum,
       acc.2.2 + l.length) := by
  induction l generalizing acc with
  | nil => simp
  | cons t ts ih =>
    simp only [List.foldl_cons, List.map_cons, List.sum_cons, List.length_cons,
      ih, buildStep, Prod.mk.injEq]
    refine ⟨by simp, by omega, by omega⟩

theorem make_types (k : Nat) (resolve : Nat → ciType) (d : MethodDescriptor) :
    (ciSignature.make k resolve d).types =
      d.params.map (resolveToken resolve) ++ [resolveToken resolve d.ret] := by
  simp [ciSignature.make, buildStep_foldl]

theorem make_size (k : Nat) (resolve : Nat → ciType) (d : MethodDescriptor) :
    (ciSignature.make k resolve d).size =
      (d.params.map (fun tok => (resolveToken resolve tok).size)).sum := by
  simp [ciSignature.make, buildStep_foldl]

theorem make_count (k : Nat) (resolve : Nat → ciType) (d : MethodDescriptor) :
    (ciSignature.make k resolve d).count = d.params.length := by
  simp [ciSignature.make, buildStep_foldl]

theorem make_symbol (k : Nat) (resolve : Nat → ciType) (d : MethodDescriptor) :
    (ciSignature.make k resolve d).symbol = d :=
  rfl

theorem growableAt_natCast {α : Type} (l : List α) (i : Nat) :
    growableAt l (i : Int) = l[i]? := by
  simp [growableAt]

theorem growableAt_isSome {α : Type} (l : List α) (i : Int) :
    (growableAt l i).isSome = true ↔ 0 ≤ i ∧ i < (l.length : Int) := by
  unfold growableAt
  by_cases h : 0 ≤ i
  · rw [if_pos h, Option.isSome_iff_exists]
    constructor
    · rintro ⟨a, ha⟩
      have hlt := (List.getElem?_eq_some.mp ha).1
      omega
    · rintro ⟨-, hlt⟩
      have hlt2 : i.toNat < l.length := by omega
      exact ⟨l[i.toNat], List.getElem?_eq_getElem hlt2⟩
  · rw [if_neg h]
    simp only [Option.isSome_none, Bool.false_eq_true, false_iff]
    omega

theorem unwrap_of_not_never_null {t : ciType} (h : t.is_never_null = false) :
    t.unwrap = t := by
  cases t <;> simp_all [ciType.unwrap, ciType.is_never_null]

theorem resolveToken_eq_wrap (resolve : Nat → ciType) (tok : SigToken) :
    resolveToken resolve tok = wrapIfNeverNull (tokenToPair resolve tok) := by
  cases tok <;>
    simp [resolveToken, tokenToPair, wrapIfNeverNull, SigToken.isQ]

theorem wrapIfNeverNull_unwrap {p : ciType × Bool}
    (h : p.1.is_never_null = false) : (wrapIfNeverNull p).unwrap = p.1 := by
  unfold wrapIfNeverNull
  split
  · rfl
  · exact unwrap_of_not_never_null h

theorem wrapIfNeverNull_size (p : ciType × Bool) :
    (wrapIfNeverNull p).size = p.1.size := by
  unfold wrapIfNeverNull
  split
  · rfl
  · rfl

theorem wrapIfNeverNull_never_null {p : ciType × Bool}
    (h : p.1.is_never_null = false) :
    (wrapIfNeverNull p).is_never_null = (p.1.is_valuetype && p.2) := by
  unfold wrapIfNeverNull
  split <;> simp_all [ciType.is_never_null]

theorem make_elem_param (k : Nat) (resolve : Nat → ciType)
    (d : MethodDescriptor) (j : Nat) (h : j < d.params.length) :
    growableAt (ciSignature.make k resolve d).types (j : Int) =
      some (resolveToken resolve (d.params.get ⟨j, h⟩)) := by
  rw [make_types, growableAt_natCast]
  rw [List.getElem?_append, if_pos (by simpa using h)]
  simp [List.getElem?_eq_getElem, h]

theorem make_elem_ret (k : Nat) (resolve : Nat → ciType)
    (d : MethodDescriptor) :
    growableAt (ciSignature.make k resolve d).types
        ((ciSignature.make k resolve d).count : Int) =
      some (resolveToken resolve d.ret) := by
  rw [make_count, make_types, growableAt_natCast]
  rw [List.getElem?_append_right (by simp)]
  simp

theorem mt_elem_param (k : Nat) (sym : MethodDescriptor) (mt : ciMethodType)
    (j : Nat) (h : j < mt.ptypes.length) :
    growableAt (ciSignature.makeFromMethodType k sym mt).types (j : Int) =
      some (wrapIfNeverNull (mt.ptypes.get ⟨j, h⟩)) := by
  rw [ciSignature.makeFromMethodType, growableAt_natCast]
  rw [List.getElem?_append, if_pos (by simpa using h)]
  simp [List.getElem?_eq_getElem, h]

theorem mt_elem_ret (k : Nat) (sym : MethodDescriptor) (mt : ciMethodType) :
    growableAt (ciSignature.makeFromMethodType k sym mt).types
        ((ciSignature.makeFromMethodType k sym mt).count : Int) =
      some (wrapIfNeverNull mt.rtype) := by
  rw [ciSignature.makeFromMethodType, growableAt_natCast]
  simp only [ciMethodType.ptype_count]
  rw [List.getElem?_append_right (by simp)]
  simp

theorem growableAt_mem {α : Type} {l : List α} {i : Int} {a : α}
    (h : growableAt l i = some a) : a ∈ l := by
  unfold growableAt at h
  split at h
  · exact List.getElem?_mem h
  · cases h

theorem make_elem_ret2 (k : Nat) (resolve : Nat → ciType)
    (d : MethodDescriptor) :
    growableAt (ciSignature.make k resolve d).types (d.params.length : Int)
      = some (resolveToken resolve d.ret) := by
  rw [make_types, growableAt_natCast]
  rw [List.getElem?_append_right (by simp)]
  simp

theorem mt_count (k : Nat) (sym : MethodDescriptor) (mt : ciMethodType) :
    (ciSignature.makeFromMethodType k sym mt).count = mt.ptypes.length :=
  rfl

theorem mt_elem_ret2 (k : Nat) (sym : MethodDescriptor) (mt : ciMethodType) :
    growableAt (ciSignature.makeFromMethodType k sym mt).types
        (mt.ptypes.length : Int)
      = some (wrapIfNeverNull mt.rtype) := by
  rw [ciSignature.makeFromMethodType, growableAt_natCast]
  rw [List.getElem?_append_right (by simp)]
  simp

theorem resolveToken_never_null_iff (resolve : Nat → ciType)
    (hr : goodResolver resolve) (tok : SigToken) :
    (resolveToken resolve tok).is_never_null = true ↔
      ∃ n, tok = SigToken.ref n true ∧
        ∃ id, resolve n = ciType.valuetype id := by
  cases tok with
  | prim k =>
    simp [resolveToken, SigToken.isQ, ciType.is_never_null, ciType.is_valuetype]
  | ref n q =>
    have hn := hr n
    cases hq : q <;> cases ht : resolve n <;>
      simp_all [resolveToken, SigToken.isQ, ciType.is_never_null,
        ciType.is_valuetype]

/-- Claim C3: every Signature produced by either constructor stores
`parameter_count + 1` elements, with the resolved return type as the last
element and the resolved parameters before it in declaration order. -/
theorem elements_shape (k : Nat) (resolve : Nat → ciType)
    (d : MethodDescriptor) (sym : MethodDescriptor) (mt : ciMethodType) :
    ((ciSignature.make k resolve d).types.length
        = (ciSignature.make k resolve d).count + 1 ∧
      (ciSignature.make k resolve d).types.getLast?
        = some (resolveToken resolve d.ret) ∧
      (ciSignature.make k resolve d).types.take
          (ciSignature.make k resolve d).count
        = d.params.map (resolveToken resolve)) ∧
    ((ciSignature.makeFromMethodType k sym mt).types.length
        = (ciSignature.makeFromMethodType k sym mt).count + 1 ∧
      (ciSignature.makeFromMethodType k sym mt).types.getLast?
        = some (wrapIfNeverNull mt.rtype) ∧
      (ciSignature.makeFromMethodType k sym mt).types.take
          (ciSignature.makeFromMethodType k sym mt).count
        = mt.ptypes.map wrapIfNeverNull) := by
  constructor
  · refine ⟨?_, ?_, ?_⟩
    · rw [make_types, make_count]
      simp
    · rw [make_types]
      simp [List.getLast?_concat]
    · rw [make_types, make_count]
      simp
  · refine ⟨?_, ?_, ?_⟩
    · simp [ciSignature.makeFromMethodType, ciMethodType.ptype_count]
    · simp [ciSignature.makeFromMethodType, List.getLast?_concat]
    · rw [mt_count]
      simp [ciSignature.makeFromMethodType]

/-- Claim C4: for a Signature constructed from descriptor text, slot_size
is the sum of the parameter types' word footprints, parameter_count counts
exactly the parameter tokens, and the return type contributes to
neither. -/
theorem slot_size_from_params (k : Nat) (resolve : Nat → ciType)
    (d : MethodDescriptor) :
    (ciSignature.make k resolve d).size
        = (d.params.map (fun tok => (resolveToken resolve tok).size)).sum ∧
    (ciSignature.make k resolve d).count = d.params.length ∧
    ∀ ret1 ret2 : SigToken,
      (ciSignature.make k resolve ⟨d.params, ret1⟩).size
        = (ciSignature.make k resolve ⟨d.params, ret2⟩).size :=
  ⟨make_size k resolve d, make_count k resolve d,
    fun ret1 ret2 => by rw [make_size, make_size]⟩

/-- Claim C5: returns_never_null is true exactly when the stored return
element is a never-null wrapper, and for a descriptor-text signature over
a canonical resolver that happens exactly when the return token carries
the never-null marker and resolves to a loaded value type; an unloaded
class or a non-value type yields false. -/
theorem returns_never_null_characterization :
    (∀ s : ciSignature,
      s.returns_never_null = some true ↔
        ∃ inner, growableAt s.types (s.count : Int)
          = some (ciType.wrapper inner)) ∧
    ∀ (k : Nat) (resolve : Nat → ciType) (d : MethodDescriptor),
      goodResolver resolve →
      ((ciSignature.make k resolve d).returns_never_null = some true ↔
        ∃ n, d.ret = SigToken.ref n true ∧
          ∃ id, resolve n = ciType.valuetype id) := by
  constructor
  · intro s
    unfold ciSignature.returns_never_null
    cases hel : growableAt s.types (s.count : Int) with
    | none => simp
    | some t =>
      simp only [Option.map_some', Option.some.injEq]
      cases t <;> simp [ciType.is_never_null]
  · intro k resolve d hr
    unfold ciSignature.returns_never_null
    rw [make_count, make_elem_ret2]
    simp only [Option.map_some', Option.some.injEq]
    exact resolveToken_never_null_iff resolve hr d.ret

theorem returns_never_null_characterization_witness :
    (ciSignature.make 0 (fun _ => ciType.valuetype 3)
      ⟨[], SigToken.ref 5 true⟩).returns_never_null = some true :=
  (returns_never_null_characterization.2 0 (fun _ => ciType.valuetype 3)
      ⟨[], SigToken.ref 5 true⟩ (fun _ => rfl)).2 ⟨5, rfl, 3, rfl⟩

/-- Claim C2: maybe_returns_never_null is true exactly when either
returns_never_null is true, or the stored return element is an unloaded
class placeholder and the raw descriptor's return-type token carries the
never-null marker; it is false in every other case. -/
theorem maybe_returns_never_null_characterization (s : ciSignature) :
    s.maybe_returns_never_null = some true ↔
      (s.returns_never_null = some true ∨
        ((∃ id, growableAt s.types (s.count : Int)
            = some (ciType.instKlass id false)) ∧
          s.symbol.is_Q_method_signature = true)) := by
  unfold ciSignature.maybe_returns_never_null ciSignature.returns_never_null
  cases hel : growableAt s.types (s.count : Int) with
  | none => simp
  | some t =>
    simp only [Option.map_some', Option.some.injEq]
    cases t with
    | prim k =>
      simp [ciType.is_never_null, ciType.is_instance_klass]
    | instKlass id loaded =>
      cases loaded <;>
        simp [ciType.is_never_null, ciType.is_instance_klass, ciType.is_loaded]
    | valuetype id =>
      simp [ciType.is_never_null, ciType.is_instance_klass, ciType.is_loaded]
    | wrapper inner =>
      simp [ciType.is_never_null]

theorem type_at_isSome_of_lt {s : ciSignature}
    (hlen : s.count < s.types.length) (i : Int) :
    (s.type_at i).isSome = true ↔ 0 ≤ i ∧ i < (s.count : Int) := by
  unfold ciSignature.type_at
  by_cases h : i < (s.count : Int)
  · rw [if_pos h, Option.isSome_map', growableAt_isSome]
    omega
  · rw [if_neg h]
    simp only [Option.isSome_none, Bool.false_eq_true, false_iff]
    omega

theorem is_never_null_at_isSome_of_lt {s : ciSignature}
    (hlen : s.count < s.types.length) (i : Int) :
    (s.is_never_null_at i).isSome = true ↔ 0 ≤ i ∧ i < (s.count : Int) := by
  unfold ciSignature.is_never_null_at
  by_cases h : i < (s.count : Int)
  · rw [if_pos h, Option.isSome_map', growableAt_isSome]
    omega
  · rw [if_neg h]
    simp only [Option.isSome_none, Bool.false_eq_true, false_iff]
    omega

theorem make_count_lt_length (k : Nat) (resolve : Nat → ciType)
    (d : MethodDescriptor) :
    (ciSignature.make k resolve d).count
      < (ciSignature.make k resolve d).types.length := by
  rw [make_count, make_types]
  simp

theorem mt_count_lt_length (k : Nat) (sym : MethodDescriptor)
    (mt : ciMethodType) :
    (ciSignature.makeFromMethodType k sym mt).count
      < (ciSignature.makeFromMethodType k sym mt).types.length := by
  rw [mt_count]
  simp [ciSignature.makeFromMethodType]

/-- Claim C7: the indexed queries type_at and is_never_null_at succeed
exactly on 0 ≤ index < parameter_count; every out-of-range index — a
negative one as well as the return position index = parameter_count —
trips the bounds assertion (modelled as `none`, never a sentinel value),
for signatures from either constructor. -/
theorem bounds_contract (k : Nat) (resolve : Nat → ciType)
    (d : MethodDescriptor) (sym : MethodDescriptor) (mt : ciMethodType)
    (i : Int) :
    (((ciSignature.make k resolve d).type_at i).isSome = true ↔
        0 ≤ i ∧ i < ((ciSignature.make k resolve d).count : Int)) ∧
    (((ciSignature.make k resolve d).is_never_null_at i).isSome = true ↔
        0 ≤ i ∧ i < ((ciSignature.make k resolve d).count : Int)) ∧
    (((ciSignature.makeFromMethodType k sym mt).type_at i).isSome = true ↔
        0 ≤ i ∧ i < ((ciSignature.makeFromMethodType k sym mt).count : Int)) ∧
    (((ciSignature.makeFromMethodType k sym mt).is_never_null_at i).isSome
        = true ↔
        0 ≤ i ∧ i < ((ciSignature.makeFromMethodType k sym mt).count : Int)) :=
  ⟨type_at_isSome_of_lt (make_count_lt_length k resolve d) i,
   is_never_null_at_isSome_of_lt (make_count_lt_length k resolve d) i,
   type_at_isSome_of_lt (mt_count_lt_length k sym mt) i,
   is_never_null_at_isSome_of_lt (mt_count_lt_length k sym mt) i⟩

theorem equals_iff_aux (s t : ciSignature) :
    s.equals t = true ↔
      (s.symbol = t.symbol ∧
        (∀ i : Int, 0 ≤ i → i < (s.count : Int) →
          s.type_at i = t.type_at i) ∧
        s.return_type = t.return_type) := by
  unfold ciSignature.equals
  simp only [Bool.and_eq_true, decide_eq_true_eq, List.all_eq_true,
    List.mem_range]
  constructor
  · rintro ⟨⟨hsym, hall⟩, hret⟩
    refine ⟨hsym, ?_, hret⟩
    intro i h0 hlt
    have hi : i.toNat < s.count := by omega
    have h := hall i.toNat hi
    rwa [Int.toNat_of_nonneg h0] at h
  · rintro ⟨hsym, hall, hret⟩
    refine ⟨⟨hsym, ?_⟩, hret⟩
    intro j hj
    exact hall j (Int.natCast_nonneg j) (by exact_mod_cast hj)

/-- Claim C1: equals is not identity comparison — it holds exactly when
the descriptor symbols are equal, type_at agrees at every parameter index,
and return_type agrees; the accessing context appears nowhere in that
characterization, and two signatures built from different accessing
contexts over the same canonical resolution are equal. -/
theorem equals_characterization :
    (∀ s t : ciSignature,
      s.equals t = true ↔
        (s.symbol = t.symbol ∧
          (∀ i : Int, 0 ≤ i → i < (s.count : Int) →
            s.type_at i = t.type_at i) ∧
          s.return_type = t.return_type)) ∧
    ∀ (k1 k2 : Nat) (resolve : Nat → ciType) (d : MethodDescriptor),
      (ciSignature.make k1 resolve d).equals
        (ciSignature.make k2 resolve d) = true := by
  refine ⟨equals_iff_aux, ?_⟩
  intro k1 k2 resolve d
  apply (equals_iff_aux _ _).mpr
  refine ⟨rfl, ?_, ?_⟩
  · intro i h0 hlt
    unfold ciSignature.type_at
    rw [make_count, make_count, make_types, make_types]
  · unfold ciSignature.return_type
    rw [make_count, make_count, make_types, make_types]

theorem ciSignature.ext_fields {s t : ciSignature}
    (h1 : s.accessing_klass = t.accessing_klass) (h2 : s.symbol = t.symbol)
    (h3 : s.types = t.types) (h4 : s.size = t.size) (h5 : s.count = t.count) :
    s = t := by
  cases s
  cases t
  simp_all

theorem makeFromMethodType_methodTypeOf (k : Nat) (resolve : Nat → ciType)
    (d : MethodDescriptor) :
    ciSignature.makeFromMethodType k d (methodTypeOf resolve d)
      = ciSignature.make k resolve d := by
  have hmap : (d.params.map (tokenToPair resolve)).map wrapIfNeverNull
      = d.params.map (resolveToken resolve) := by
    rw [List.map_map]
    exact List.map_congr_left fun tok _ => (resolveToken_eq_wrap resolve tok).symm
  apply ciSignature.ext_fields
  · rfl
  · rfl
  · show (d.params.map (tokenToPair resolve)).map wrapIfNeverNull
        ++ [wrapIfNeverNull (tokenToPair resolve d.ret)]
      = (ciSignature.make k resolve d).types
    rw [make_types, hmap, ← resolveToken_eq_wrap]
  · show ((d.params.map (tokenToPair resolve)).map (fun p => p.1.size)).sum
      = (ciSignature.make k resolve d).size
    rw [make_size, List.map_map]
    congr 1
    exact List.map_congr_left fun tok _ => by
      rw [resolveToken_eq_wrap, wrapIfNeverNull_size]
      simp
  · show (d.params.map (tokenToPair resolve)).length
      = (ciSignature.make k resolve d).count
    rw [make_count]
    simp

/-- Claim C6: constructing a Signature from the structured equivalent of a
textual descriptor yields the same elements, the same slot size, the same
parameter count, and the same never-null observations at every parameter
position and at the return position as parsing the text. -/
theorem construction_paths_agree (k : Nat) (resolve : Nat → ciType)
    (d : MethodDescriptor) :
    (ciSignature.makeFromMethodType k d (methodTypeOf resolve d)).types
        = (ciSignature.make k resolve d).types ∧
    (ciSignature.makeFromMethodType k d (methodTypeOf resolve d)).size
        = (ciSignature.make k resolve d).size ∧
    (ciSignature.makeFromMethodType k d (methodTypeOf resolve d)).count
        = (ciSignature.make k resolve d).count ∧
    (∀ i : Int,
      (ciSignature.makeFromMethodType k d
          (methodTypeOf resolve d)).is_never_null_at i
        = (ciSignature.make k resolve d).is_never_null_at i) ∧
    (ciSignature.makeFromMethodType k d
        (methodTypeOf resolve d)).returns_never_null
      = (ciSignature.make k resolve d).returns_never_null := by
  rw [makeFromMethodType_methodTypeOf]
  exact ⟨rfl, rfl, rfl, fun i => rfl, rfl⟩

theorem resolveToken_unwrap_not_never_null (resolve : Nat → ciType)
    (hr : goodResolver resolve) (tok : SigToken) :
    ((resolveToken resolve tok).unwrap).is_never_null = false := by
  rw [resolveToken_eq_wrap]
  cases tok with
  | prim k =>
    simp [tokenToPair, wrapIfNeverNull, ciType.is_valuetype, ciType.unwrap,
      ciType.is_never_null]
  | ref n q =>
    have h : (tokenToPair resolve (SigToken.ref n q)).1.is_never_null = false :=
      hr n
    rw [wrapIfNeverNull_unwrap h]
    exact hr n

theorem make_mem_unwrap {k : Nat} {resolve : Nat → ciType}
    {d : MethodDescriptor} (hr : goodResolver resolve) :
    ∀ e ∈ (ciSignature.make k resolve d).types,
      e.unwrap.is_never_null = false := by
  intro e he
  rw [make_types] at he
  rcases List.mem_append.mp he with h | h
  · rcases List.mem_map.mp h with ⟨tok, -, rfl⟩
    exact resolveToken_unwrap_not_never_null resolve hr tok
  · obtain rfl := List.mem_singleton.mp h
    exact resolveToken_unwrap_not_never_null resolve hr d.ret

theorem mt_mem_unwrap {k : Nat} {sym : MethodDescriptor}
    {mt : ciMethodType} (hmt : mt.wellFormed) :
    ∀ e ∈ (ciSignature.makeFromMethodType k sym mt).types,
      e.unwrap.is_never_null = false := by
  intro e he
  rcases List.mem_append.mp he with h | h
  · rcases List.mem_map.mp h with ⟨p, hp, rfl⟩
    rw [wrapIfNeverNull_unwrap (hmt.1 p hp)]
    exact hmt.1 p hp
  · obtain rfl := List.mem_singleton.mp h
    rw [wrapIfNeverNull_unwrap hmt.2]
    exact hmt.2

theorem type_at_not_never_null {s : ciSignature}
    (hall : ∀ e ∈ s.types, e.unwrap.is_never_null = false)
    (i : Int) (t : ciType) (ht : s.type_at i = some t) :
    t.is_never_null = false := by
  unfold ciSignature.type_at at ht
  split at ht
  · rcases Option.map_eq_some'.mp ht with ⟨e, he, rfl⟩
    exact hall e (growableAt_mem he)
  · cases ht

theorem return_type_not_never_null {s : ciSignature}
    (hall : ∀ e ∈ s.types, e.unwrap.is_never_null = false)
    (t : ciType) (ht : s.return_type = some t) :
    t.is_never_null = false := by
  unfold ciSignature.return_type at ht
  rcases Option.map_eq_some'.mp ht with ⟨e, he, rfl⟩
  exact hall e (growableAt_mem he)

/-- Claim C8: type_at and return_type never return a never-null wrapper —
they always produce the unwrapped underlying type, so wrapping state is
observable only through the nullability queries. -/
theorem queries_return_unwrapped (k : Nat) (resolve : Nat → ciType)
    (d : MethodDescriptor) (sym : MethodDescriptor) (mt : ciMethodType)
    (hr : goodResolver resolve) (hmt : mt.wellFormed) :
    (∀ (i : Int) (t : ciType),
      (ciSignature.make k resolve d).type_at i = some t →
        t.is_never_null = false) ∧
    (∀ t : ciType,
      (ciSignature.make k resolve d).return_type = some t →
        t.is_never_null = false) ∧
    (∀ (i : Int) (t : ciType),
      (ciSignature.makeFromMethodType k sym mt).type_at i = some t →
        t.is_never_null = false) ∧
    (∀ t : ciType,
      (ciSignature.makeFromMethodType k sym mt).return_type = some t →
        t.is_never_null = false) :=
  ⟨fun i t => type_at_not_never_null (make_mem_unwrap hr) i t,
   fun t => return_type_not_never_null (make_mem_unwrap hr) t,
   fun i t => type_at_not_never_null (mt_mem_unwrap hmt) i t,
   fun t => return_type_not_never_null (mt_mem_unwrap hmt) t⟩

theorem queries_return_unwrapped_witness :
    (ciType.valuetype 3).is_never_null = false :=
  (queries_return_unwrapped 0 (fun _ => ciType.valuetype 3)
      ⟨[SigToken.ref 0 true], SigToken.prim BasicType.t_void⟩
      ⟨[], SigToken.prim BasicType.t_void⟩
      ⟨[(ciType.valuetype 3, true)], (ciType.prim BasicType.t_void, false)⟩
      (fun _ => rfl) ⟨by decide, rfl⟩).1 0 (ciType.valuetype 3) (by decide)

/-- Claim C9: no descriptor-text fallback exists for parameters — a
parameter whose token carries the never-null marker but whose class is
unloaded is stored unwrapped, so is_never_null_at answers false, while the
return position in the same situation makes maybe_returns_never_null
answer true. -/
theorem no_unloaded_parameter_fallback (k : Nat) (resolve : Nat → ciType)
    (d : MethodDescriptor) (n id : Nat)
    (hres : resolve n = ciType.instKlass id false) :
    (∀ (j : Nat) (hj : j < d.params.length),
      d.params.get ⟨j, hj⟩ = SigToken.ref n true →
      (ciSignature.make k resolve d).is_never_null_at (j : Int)
        = some false) ∧
    (d.ret = SigToken.ref n true →
      (ciSignature.make k resolve d).maybe_returns_never_null
        = some true) := by
  constructor
  · intro j hj htok
    unfold ciSignature.is_never_null_at
    rw [make_count]
    rw [if_pos (by exact_mod_cast hj)]
    rw [make_elem_param k resolve d j hj, htok]
    simp [resolveToken, SigToken.isQ, hres, ciType.is_valuetype,
      ciType.is_never_null]
  · intro hret
    unfold ciSignature.maybe_returns_never_null
    rw [make_count, make_elem_ret2, hret]
    simp [resolveToken, SigToken.isQ, hres, hret, ciType.is_valuetype,
      ciType.is_never_null, ciType.is_instance_klass, ciType.is_loaded,
      make_symbol, MethodDescriptor.is_Q_method_signature]

theorem no_unloaded_parameter_fallback_witness :
    (ciSignature.make 0 (fun _ => ciType.instKlass 4 false)
        ⟨[SigToken.ref 2 true], SigToken.ref 2 true⟩).is_never_null_at
        ((0 : Nat) : Int) = some false ∧
    (ciSignature.make 0 (fun _ => ciType.instKlass 4 false)
        ⟨[SigToken.ref 2 true], SigToken.ref 2 true⟩).maybe_returns_never_null
      = some true :=
  ⟨(no_unloaded_parameter_fallback 0 (fun _ => ciType.instKlass 4 false)
        ⟨[SigToken.ref 2 true], SigToken.ref 2 true⟩ 2 4 rfl).1 0
      (by decide) rfl,
   (no_unloaded_parameter_fallback 0 (fun _ => ciType.instKlass 4 false)
        ⟨[SigToken.ref 2 true], SigToken.ref 2 true⟩ 2 4 rfl).2 rfl⟩

theorem equals_of_unwrapped_agree (s t : ciSignature)
    (hsym : s.symbol = t.symbol) (hcnt : s.count = t.count)
    (hall : ∀ i : Int, 0 ≤ i → i ≤ (s.count : Int) →
      (growableAt s.types i).map ciType.unwrap
        = (growableAt t.types i).map ciType.unwrap) :
    s.equals t = true := by
  unfold ciSignature.equals ciSignature.type_at ciSignature.return_type
  simp only [Bool.and_eq_true, decide_eq_true_eq, List.all_eq_true,
    List.mem_range]
  refine ⟨⟨hsym, ?_⟩, ?_⟩
  · intro j hj
    have h1 : ((j : Int) < (s.count : Int)) := by exact_mod_cast hj
    rw [if_pos h1, if_pos (by rw [← hcnt]; exact h1)]
    exact hall j (Int.natCast_nonneg j) (le_of_lt h1)
  · rw [← hcnt]
    exact hall (s.count : Int) (Int.natCast_nonneg s.count) (le_refl _)

/-- Claim C10: equals is insensitive to never-null wrapping — it compares
descriptor symbols and unwrapped types only, so two signatures agreeing on
symbol and unwrapped elements are equal even when their wrapping differs
at some positions, as can arise through the structured constructor. -/
theorem equals_wrap_insensitive :
    (∀ s t : ciSignature, s.symbol = t.symbol → s.count = t.count →
      (∀ i : Int, 0 ≤ i → i ≤ (s.count : Int) →
        (growableAt s.types i).map ciType.unwrap
          = (growableAt t.types i).map ciType.unwrap) →
      s.equals t = true) ∧
    ∀ (k1 k2 : Nat) (sym : MethodDescriptor) (mt mt2 : ciMethodType),
      mt.wellFormed → mt2.wellFormed →
      mt.ptypes.map Prod.fst = mt2.ptypes.map Prod.fst →
      mt.rtype.1 = mt2.rtype.1 →
      (ciSignature.makeFromMethodType k1 sym mt).equals
        (ciSignature.makeFromMethodType k2 sym mt2) = true := by
  refine ⟨equals_of_unwrapped_agree, ?_⟩
  intro k1 k2 sym mt mt2 hwf hwf2 hmap hret
  have hlen : mt.ptypes.length = mt2.ptypes.length := by
    have h := congrArg List.length hmap
    simpa using h
  apply equals_of_unwrapped_agree
  · rfl
  · rw [mt_count, mt_count, hlen]
  · intro i h0 hle
    obtain ⟨j, rfl⟩ : ∃ j : Nat, i = (j : Int) :=
      ⟨i.toNat, (Int.toNat_of_nonneg h0).symm⟩
    rw [mt_count] at hle
    have hj : j ≤ mt.ptypes.length := by exact_mod_cast hle
    rcases lt_or_eq_of_le hj with hlt | heq
    · have hlt2 : j < mt2.ptypes.length := hlen ▸ hlt
      rw [mt_elem_param k1 sym mt j hlt, mt_elem_param k2 sym mt2 j hlt2]
      simp only [Option.map_some', Option.some.injEq]
      rw [wrapIfNeverNull_unwrap (hwf.1 _ (List.get_mem _ _ _)),
        wrapIfNeverNull_unwrap (hwf2.1 _ (List.get_mem _ _ _))]
      have h1 := congrArg (fun l => l[j]?) hmap
      simp only [List.getElem?_map] at h1
      rw [List.getElem?_eq_getElem hlt, List.getElem?_eq_getElem hlt2] at h1
      simp only [Option.map_some', Option.some.injEq] at h1
      simpa [List.get_eq_getElem] using h1
    · subst heq
      rw [mt_elem_ret2 k1 sym mt]
      conv_rhs => rw [hlen]
      rw [mt_elem_ret2 k2 sym mt2]
      simp only [Option.map_some', Option.some.injEq]
      rw [wrapIfNeverNull_unwrap hwf.2, wrapIfNeverNull_unwrap hwf2.2, hret]

theorem equals_wrap_insensitive_witness :
    (ciSignature.makeFromMethodType 0
        ⟨[SigToken.ref 1 true], SigToken.ref 2 true⟩
        ⟨[(ciType.valuetype 1, true)], (ciType.valuetype 2, true)⟩).equals
      (ciSignature.makeFromMethodType 1
        ⟨[SigToken.ref 1 true], SigToken.ref 2 true⟩
        ⟨[(ciType.valuetype 1, false)], (ciType.valuetype 2, false)⟩)
      = true :=
  equals_wrap_insensitive.2 0 1 ⟨[SigToken.ref 1 true], SigToken.ref 2 true⟩
    ⟨[(ciType.valuetype 1, true)], (ciType.valuetype 2, true)⟩
    ⟨[(ciType.valuetype 1, false)], (ciType.valuetype 2, false)⟩
    ⟨by decide, rfl⟩ ⟨by decide, rfl⟩ rfl rfl

theorem equals_characterization_witness :
    (ciSignature.make 0 (fun _ => ciType.instKlass 9 true)
        ⟨[SigToken.ref 9 false], SigToken.prim BasicType.t_int⟩).equals
      (ciSignature.make 1 (fun _ => ciType.instKlass 9 true)
        ⟨[SigToken.ref 9 false], SigToken.prim BasicType.t_int⟩) = true :=
  equals_characterization.2 0 1 (fun _ => ciType.instKlass 9 true)
    ⟨[SigToken.ref 9 false], SigToken.prim BasicType.t_int⟩

theorem maybe_returns_never_null_characterization_witness :
    (ciSignature.make 0 (fun _ => ciType.instKlass 6 false)
        ⟨[], SigToken.ref 6 true⟩).maybe_returns_never_null = some true :=
  (maybe_returns_never_null_characterization
      (ciSignature.make 0 (fun _ => ciType.instKlass 6 false)
        ⟨[], SigToken.ref 6 true⟩)).mpr
    (Or.inr ⟨⟨6, by decide⟩, rfl⟩)

theorem elements_shape_witness :
    (ciSignature.make 0 (fun _ => ciType.valuetype 0)
        ⟨[SigToken.prim BasicType.t_int],
          SigToken.prim BasicType.t_void⟩).types.length
      = (ciSignature.make 0 (fun _ => ciType.valuetype 0)
          ⟨[SigToken.prim BasicType.t_int],
            SigToken.prim BasicType.t_void⟩).count + 1 :=
  (elements_shape 0 (fun _ => ciType.valuetype 0)
      ⟨[SigToken.prim BasicType.t_int], SigToken.prim BasicType.t_void⟩
      ⟨[], SigToken.prim BasicType.t_void⟩
      ⟨[], (ciType.prim BasicType.t_void, false)⟩).1.1

theorem slot_size_from_params_witness :
    (ciSignature.make 0 (fun _ => ciType.valuetype 7)
        ⟨[SigToken.prim BasicType.t_int, SigToken.prim BasicType.t_double,
          SigToken.ref 7 true], SigToken.prim BasicType.t_void⟩).count
      = [SigToken.prim BasicType.t_int, SigToken.prim BasicType.t_double,
          SigToken.ref 7 true].length :=
  (slot_size_from_params 0 (fun _ => ciType.valuetype 7)
      ⟨[SigToken.prim BasicType.t_int, SigToken.prim BasicType.t_double,
        SigToken.ref 7 true], SigToken.prim BasicType.t_void⟩).2.1

theorem construction_paths_agree_witness :
    (ciSignature.makeFromMethodType 0
        ⟨[SigToken.ref 1 true], SigToken.prim BasicType.t_void⟩
        (methodTypeOf (fun _ => ciType.valuetype 1)
          ⟨[SigToken.ref 1 true], SigToken.prim BasicType.t_void⟩)).size
      = (ciSignature.make 0 (fun _ => ciType.valuetype 1)
          ⟨[SigToken.ref 1 true], SigToken.prim BasicType.t_void⟩).size :=
  (construction_paths_agree 0 (fun _ => ciType.valuetype 1)
      ⟨[SigToken.ref 1 true], SigToken.prim BasicType.t_void⟩).2.1

theorem bounds_contract_witness :
    ((ciSignature.make 0 (fun _ => ciType.valuetype 0)
        ⟨[SigToken.prim BasicType.t_int],
          SigToken.prim BasicType.t_void⟩).type_at (-1 : Int)).isSome = true ↔
      0 ≤ (-1 : Int) ∧ (-1 : Int)
        < ((ciSignature.make 0 (fun _ => ciType.valuetype 0)
            ⟨[SigToken.prim BasicType.t_int],
              SigToken.prim BasicType.t_void⟩).count : Int) :=
  (bounds_contract 0 (fun _ => ciType.valuetype 0)
      ⟨[SigToken.prim BasicType.t_int], SigToken.prim BasicType.t_void⟩
      ⟨[], SigToken.prim BasicType.t_void⟩
      ⟨[], (ciType.prim BasicType.t_void, false)⟩ (-1)).1
